import Mathlib

/-!
Shallow embedding of the PyChemia core (pychemia/core/composition.py and
pychemia/core/structure.py) used to settle the frozen claims about its
specification.  Numeric values (Python floats) are modelled exactly over ℚ;
external collaborators (periodic-table lookups, the Lattice service, numpy
random draws) are modelled from the spec as explicit parameters.
-/

namespace PyChemia

/-- Python exceptions that the embedded code can raise.  The constructors mirror
the exception classes actually raised by the source; `generationFailed` models
the spec's `GenerationFailedError`, which the source never raises (it is needed
to state claims about it). -/
inductive Err where
  | assertionError
  | valueError
  | typeError
  | indexError
  | attributeError
  | linAlgError
  | generationFailed
  deriving DecidableEq, Repr

/-- A 3-vector of exact rationals, modelling a numpy length-3 float array. -/
structure Vec3 where
  x : ℚ
  y : ℚ
  z : ℚ
  deriving DecidableEq, Repr

namespace Vec3

def add (u v : Vec3) : Vec3 := ⟨u.x + v.x, u.y + v.y, u.z + v.z⟩

def sub (u v : Vec3) : Vec3 := ⟨u.x - v.x, u.y - v.y, u.z - v.z⟩

def neg (u : Vec3) : Vec3 := ⟨-u.x, -u.y, -u.z⟩

def smul (q : ℚ) (u : Vec3) : Vec3 := ⟨q * u.x, q * u.y, q * u.z⟩

instance : Add Vec3 := ⟨Vec3.add⟩

instance : Sub Vec3 := ⟨Vec3.sub⟩

instance : Neg Vec3 := ⟨Vec3.neg⟩

def dot (u v : Vec3) : ℚ := u.x * v.x + u.y * v.y + u.z * v.z

/-- Squared Euclidean norm. -/
def sqNorm (u : Vec3) : ℚ := u.x * u.x + u.y * u.y + u.z * u.z

def zero : Vec3 := ⟨0, 0, 0⟩

end Vec3

/-- A 3×3 rational matrix given by its rows, modelling a numpy (3,3) array such
as a cell of lattice vectors (rows). -/
structure Mat3 where
  r0 : Vec3
  r1 : Vec3
  r2 : Vec3
  deriving DecidableEq, Repr

namespace Mat3

def transpose (m : Mat3) : Mat3 :=
  ⟨⟨m.r0.x, m.r1.x, m.r2.x⟩, ⟨m.r0.y, m.r1.y, m.r2.y⟩, ⟨m.r0.z, m.r1.z, m.r2.z⟩⟩

/-- Matrix acting on a column vector: `(A v)ᵢ = rowᵢ · v`. -/
def mulVec (m : Mat3) (v : Vec3) : Vec3 :=
  ⟨m.r0.dot v, m.r1.dot v, m.r2.dot v⟩

def identity : Mat3 := ⟨⟨1, 0, 0⟩, ⟨0, 1, 0⟩, ⟨0, 0, 1⟩⟩

def diagonal (v : Vec3) : Mat3 := ⟨⟨v.x, 0, 0⟩, ⟨0, v.y, 0⟩, ⟨0, 0, v.z⟩⟩

def scalarMul (q : ℚ) (m : Mat3) : Mat3 := ⟨Vec3.smul q m.r0, Vec3.smul q m.r1, Vec3.smul q m.r2⟩

def det (m : Mat3) : ℚ :=
  m.r0.x * (m.r1.y * m.r2.z - m.r1.z * m.r2.y)
    - m.r0.y * (m.r1.x * m.r2.z - m.r1.z * m.r2.x)
    + m.r0.z * (m.r1.x * m.r2.y - m.r1.y * m.r2.x)

def matMul (a b : Mat3) : Mat3 :=
  let bt := b.transpose
  ⟨⟨a.r0.dot bt.r0, a.r0.dot bt.r1, a.r0.dot bt.r2⟩,
   ⟨a.r1.dot bt.r0, a.r1.dot bt.r1, a.r1.dot bt.r2⟩,
   ⟨a.r2.dot bt.r0, a.r2.dot bt.r1, a.r2.dot bt.r2⟩⟩

end Mat3

/-- Row vector times matrix: `v · M = v.x M.r0 + v.y M.r1 + v.z M.r2`.
`numpy.dot` of a length-3 vector with a (3,3) matrix. -/
def rowVecMul (v : Vec3) (m : Mat3) : Vec3 :=
  Vec3.smul v.x m.r0 + Vec3.smul v.y m.r1 + Vec3.smul v.z m.r2

/-- The Cramer solution of the 3×3 system `A x = b` (each component a quotient
of determinants). -/
def cramer3 (a : Mat3) (b : Vec3) : Vec3 :=
  ⟨(Mat3.det ⟨⟨b.x, a.r0.y, a.r0.z⟩, ⟨b.y, a.r1.y, a.r1.z⟩, ⟨b.z, a.r2.y, a.r2.z⟩⟩) / a.det,
   (Mat3.det ⟨⟨a.r0.x, b.x, a.r0.z⟩, ⟨a.r1.x, b.y, a.r1.z⟩, ⟨a.r2.x, b.z, a.r2.z⟩⟩) / a.det,
   (Mat3.det ⟨⟨a.r0.x, a.r0.y, b.x⟩, ⟨a.r1.x, a.r1.y, b.y⟩, ⟨a.r2.x, a.r2.y, b.z⟩⟩) / a.det⟩

/-- Exact-arithmetic model of `numpy.linalg.solve(A, B)` with a matrix of
right-hand sides (one per atom): the factorization fails on a singular matrix
(`LinAlgError`, also for an empty right-hand side), otherwise every column is
solved. -/
def solveRows (a : Mat3) (l : List Vec3) : Option (List Vec3) :=
  if a.det = 0 then none else some (l.map fun b => cramer3 a b)

/-- Python float `%= 1.0`: wrap a coordinate into `[0, 1)` (floor semantics). -/
def wrap01 (q : ℚ) : ℚ := Int.fract q

/-- Modelled from the spec: the PeriodicTableService's set of recognized element
symbols (`atomic_symbols` in `pychemia.utils.periodic`, outside this core).  A
representative list of real element symbols sufficient for the claims. -/
def atomicSymbols : List String :=
  ["H", "He", "Li", "Be", "B", "C", "N", "O", "F", "Ne",
   "Na", "Mg", "Al", "Si", "P", "S", "Cl", "Ar", "K", "Ca",
   "Ti", "Cr", "Mn", "Fe", "Co", "Ni", "Cu", "Zn", "Se", "Kr",
   "Sr", "Zr", "Mo", "Ru", "Pd", "Ag", "Cd", "Sn", "Te", "Xe",
   "Ba", "La", "W", "Pt", "Au", "Hg", "Pb", "Bi", "U", "Uuo"]

/-- A Python value as it can appear as a count in a composition mapping:
`pyInt` is a value for which `isinstance(value, int)` holds, the other
constructors are non-int values. -/
inductive PyVal where
  | pyInt : Int → PyVal
  | pyFloat : ℚ → PyVal
  | pyStr : String → PyVal
  deriving DecidableEq, Repr

/-- `dict[key] = v` on an association list: overwrite the value at an existing
key in place, otherwise append the new binding. -/
def dictSet (d : List (String × Int)) (k : String) (v : Int) : List (String × Int) :=
  match d with
  | [] => [(k, v)]
  | (k', v') :: rest => if k' = k then (k, v) :: rest else (k', v') :: dictSet rest k v

/-- Value of a digit string, Python `int(number)` for a nonempty run of digits. -/
def digitsToInt (l : List Char) : Int :=
  l.foldl (fun a c => 10 * a + (c.toNat - '0'.toNat : Int)) 0

/-- Lookahead at an uppercase character `c` with remaining characters `rest`:
the species token starting there.  Returns the symbol, the number `jump` of
extension characters consumed after `c` (0, 1 or 2), mirroring
`value[i:i+3]`/`value[i:i+2]`/`value[i]` with the `islower` tests of the
source. -/
def speciesAt (c : Char) (rest : List Char) : String × Nat :=
  match rest with
  | c1 :: c2 :: _ =>
      if c1.isLower then
        if c2.isLower then (String.mk [c, c1, c2], 2) else (String.mk [c, c1], 1)
      else (String.mk [c], 0)
  | [c1] => if c1.isLower then (String.mk [c, c1], 1) else (String.mk [c], 0)
  | [] => (String.mk [c], 0)

/-- The count following a species token: all immediately following digit
characters (starting at index `i + jump + 1`, i.e. `rest.drop jump`), with
default count 1 when there are none; mirrors the inner `while` loop. -/
def countAfter (rest : List Char) (jump : Nat) : Int :=
  let number := (rest.drop jump).takeWhile Char.isDigit
  if number = [] then 1 else digitsToInt number

/-- The scanning loop of `Composition.formula_parser`: the list argument is the
suffix of the string still to be visited, `jump` the number of characters that
belong to the current atom and are skipped (`jump -= 1` branch), `ret` the
dictionary built so far. -/
def fpGo : List Char → Nat → List (String × Int) → List (String × Int)
  | [], _, ret => ret
  | _ :: rest, jump + 1, ret => fpGo rest jump ret
  | c :: rest, 0, ret =>
      if c.isUpper then
        let sj := speciesAt c rest
        fpGo rest sj.2 (dictSet ret sj.1 (countAfter rest sj.2))
      else fpGo rest 0 ret

/-- `Composition.formula_parser`. -/
def formulaParser (value : String) : List (String × Int) :=
  fpGo value.toList 0 []

/-- Modelled from the spec (claim C5's wording, for the refinement theorem): a
token starts at each uppercase letter, its symbol and count are read by
lookahead, characters not part of any token are ignored, later tokens
overwrite earlier counts.  The scan advances one character at a time. -/
def claimScan : List Char → List (String × Int) → List (String × Int)
  | [], ret => ret
  | c :: rest, ret =>
      claimScan rest
        (if c.isUpper then
          let sj := speciesAt c rest
          dictSet ret sj.1 (countAfter rest sj.2)
        else ret)

/-- `Composition._set_composition`: asserts every key is a recognized symbol and
every value an `int` (no sign check), then stores a copy. -/
def set_composition : List (String × PyVal) → Except Err (List (String × Int))
  | [] => Except.ok []
  | (k, v) :: rest =>
      if k ∈ atomicSymbols then
        match v with
        | PyVal.pyInt n => do
            let r ← set_composition rest
            return (k, n) :: r
        | _ => Except.error Err.assertionError
      else Except.error Err.assertionError

/-- The composition dictionary: species with integer counts. -/
structure Composition where
  composition : List (String × Int)
  deriving DecidableEq, Repr

namespace Composition

/-- `Composition.values`. -/
def values (c : Composition) : List Int := c.composition.map Prod.snd

/-- `Composition.natom`: the sum of the counts. -/
def natom (c : Composition) : Int := (c.values).sum

/-- `Composition.symbols`: each species repeated `count` times
(`for i in range(n)` yields nothing for a non-positive `n`). -/
def symbols (c : Composition) : List String :=
  c.composition.flatMap (fun sv => List.replicate sv.2.toNat sv.1)

/-- `Composition.covalent_volume(packing)`.  `covalentRadius` models the
external periodic-table lookup, `piVal` the value of `math.pi`; the sum is
accumulated in source order. -/
def covalent_volume (covalentRadius : String → ℚ) (piVal : ℚ)
    (c : Composition) (packing : String) : Except Err ℚ := do
  let factor : ℚ ←
    if packing = "cubes" then pure 8
    else if packing = "spheres" then pure (4 * piVal / 3)
    else Except.error Err.valueError
  return c.composition.foldl
    (fun volume sv => volume + factor * (sv.2 : ℚ) * covalentRadius sv.1 ^ 3) 0

end Composition

/-- numpy `.round()`: round half to even, returning an integer. -/
def npRound (q : ℚ) : ℤ :=
  let f := Int.fract q
  if f < 1/2 then ⌊q⌋
  else if 1/2 < f then ⌊q⌋ + 1
  else if 2 ∣ ⌊q⌋ then ⌊q⌋ else ⌊q⌋ + 1

/-- `pos -= pos.round()`: move a scaled position into `[-0.5, 0.5]`
componentwise (numpy round-half-even semantics). -/
def wrapHalf (v : Vec3) : Vec3 :=
  ⟨v.x - npRound v.x, v.y - npRound v.y, v.z - npRound v.z⟩

/-- Exact model of `numpy.linalg.inv` for a 3×3 matrix: adjugate over the
determinant, `none` on a singular matrix (`LinAlgError`). -/
def inv3 (m : Mat3) : Option Mat3 :=
  let d := m.det
  if d = 0 then none
  else
    some ⟨⟨(m.r1.y * m.r2.z - m.r1.z * m.r2.y) / d,
           -(m.r0.y * m.r2.z - m.r0.z * m.r2.y) / d,
           (m.r0.y * m.r1.z - m.r0.z * m.r1.y) / d⟩,
          ⟨-(m.r1.x * m.r2.z - m.r1.z * m.r2.x) / d,
           (m.r0.x * m.r2.z - m.r0.z * m.r2.x) / d,
           -(m.r0.x * m.r1.z - m.r0.z * m.r1.x) / d⟩,
          ⟨(m.r1.x * m.r2.y - m.r1.y * m.r2.x) / d,
           -(m.r0.x * m.r2.y - m.r0.y * m.r2.x) / d,
           (m.r0.x * m.r1.y - m.r0.y * m.r1.x) / d⟩⟩

/-- Python `min` over a list of reals: `ValueError` on an empty sequence. -/
noncomputable def pyMinR : List ℝ → Except Err ℝ
  | [] => Except.error Err.valueError
  | x :: xs => Except.ok (xs.foldl min x)

/-- The 27 integer image offsets, in the order of the three nested loops
`for i in (-1, 0, 1): for j ...: for k ...`. -/
def imageOffsets : List Vec3 :=
  ([-1, 0, 1] : List ℚ).flatMap fun i =>
    ([-1, 0, 1] : List ℚ).flatMap fun j =>
      ([-1, 0, 1] : List ℚ).map fun k => (⟨i, j, k⟩ : Vec3)

/-- The core of `positions2reduced` on plain data: solve
`cellᵀ · reducedᵀ = positionsᵀ` row by row (`numpy.linalg.solve`), then wrap
the components of every periodic axis into `[0, 1)`. -/
def positions2reducedL (c : Mat3) (per : List Bool) (pos : List Vec3) :
    Except Err (List Vec3) := do
  let red ← match solveRows c.transpose pos with
    | some red => pure red
    | none => Except.error Err.linAlgError
  return red.map fun r =>
    ⟨if per.getD 0 false then wrap01 r.x else r.x,
     if per.getD 1 false then wrap01 r.y else r.y,
     if per.getD 2 false then wrap01 r.z else r.z⟩

/-- The `Structure` record after construction: atom count, symbols, cartesian
positions, optional reduced coordinates and cell, per-axis periodicity and the
cached composition (`_composition`, `None` when invalidated). -/
structure Structure where
  natom : Int
  symbols : List String
  positions : List Vec3
  reduced : Option (List Vec3)
  cell : Option Mat3
  periodicity : List Bool
  compositionCache : Option Composition
  deriving DecidableEq, Repr

namespace Structure

/-- `Structure.__eq__`: the cascade of comparisons in the source; `None` fields
compare equal to `None` and unequal to arrays, as `numpy.array_equal` does. -/
def structEq (s other : Structure) : Bool :=
  if s.natom ≠ other.natom then false
  else if ¬(s.cell = other.cell) then false
  else if ¬(s.positions = other.positions) then false
  else if ¬(s.reduced = other.reduced) then false
  else if ¬(s.periodicity = other.periodicity) then false
  else true

/-- `Structure.__ne__`. -/
def structNe (s other : Structure) : Bool :=
  !(structEq s other)

/-- `Structure.positions2reduced`: solve `cellᵀ · reducedᵀ = positionsᵀ` row by
row, then wrap the components of every periodic axis into `[0, 1)`. -/
def positions2reduced (s : Structure) : Except Err Structure := do
  let c ← match s.cell with
    | some c => pure c
    | none => Except.error Err.attributeError
  let red ← positions2reducedL c s.periodicity s.positions
  return {s with reduced := some red}

/-- `Structure.reduced2positions`: `positions = reduced · cell`. -/
def reduced2positions (s : Structure) : Except Err Structure := do
  let r ← match s.reduced with
    | some r => pure r
    | none => Except.error Err.typeError
  let c ← match s.cell with
    | some c => pure c
    | none => Except.error Err.typeError
  return {s with positions := r.map fun v => rowVecMul v c}

/-- `Structure.get_distance(iatom, jatom, with_periodicity, tolerance)`.
`grb` models the external `get_reduced_bases` collaborator.  With periodicity
the scaled positions are wrapped into `[-0.5, 0.5]` and the minimum over the
27 image offsets is returned. -/
noncomputable def get_distance (grb : Mat3 → ℚ → Mat3) (s : Structure)
    (iatom jatom : Nat) (withPeriodicity : Bool) (tolerance : ℚ) : Except Err ℝ :=
  if withPeriodicity then do
    let c ← match s.cell with
      | some c => pure c
      | none => Except.error Err.typeError
    let reducedBases := grb c tolerance
    let rbinv ← match inv3 reducedBases with
      | some m => pure m
      | none => Except.error Err.linAlgError
    let scaledPos := s.positions.map fun p => wrapHalf (rowVecMul p rbinv)
    let si ← match scaledPos.get? iatom with
      | some v => pure v
      | none => Except.error Err.indexError
    let sj ← match scaledPos.get? jatom with
      | some v => pure v
      | none => Except.error Err.indexError
    let distancesList := imageOffsets.map fun off =>
      Real.sqrt ((Vec3.sqNorm (rowVecMul (si - sj + off) reducedBases) : ℚ) : ℝ)
    pyMinR distancesList
  else do
    let posi ← match s.positions.get? iatom with
      | some v => pure v
      | none => Except.error Err.indexError
    let posj ← match s.positions.get? jatom with
      | some v => pure v
      | none => Except.error Err.indexError
    return Real.sqrt ((Vec3.sqNorm (posi - posj) : ℚ) : ℝ)

/-- Python `list.pop(index)`: negative indices count from the end,
`IndexError` when out of range. -/
def pyPop (l : List String) (index : Int) : Except Err (List String) :=
  let i := if index < 0 then index + l.length else index
  if 0 ≤ i ∧ i < l.length then Except.ok (l.eraseIdx i.toNat)
  else Except.error Err.indexError

/-- `numpy.delete(arr, index, 0)`: returns a copy with the row removed; raises
on a missing array or an out-of-range index.  In `del_atom` the source
discards the returned value, so only the error effect matters there. -/
def npDelete (arr : Option (List Vec3)) (index : Int) : Except Err (List Vec3) :=
  match arr with
  | none => Except.error Err.valueError
  | some l =>
      let i := if index < 0 then index + l.length else index
      if 0 ≤ i ∧ i < l.length then Except.ok (l.eraseIdx i.toNat)
      else Except.error Err.indexError

/-- `Structure.del_atom(index)`: asserts `|index| < natom`, pops the symbol,
calls `numpy.delete` on positions and reduced WITHOUT keeping the result (as
the source does), decrements `natom` and invalidates the cached composition. -/
def del_atom (s : Structure) (index : Int) : Except Err Structure := do
  if ¬(|index| < s.natom) then Except.error Err.assertionError else do
  let symbols ← pyPop s.symbols index
  let _ ← npDelete (some s.positions) index
  let _ ← npDelete s.reduced index
  return {s with symbols := symbols, natom := s.natom - 1, compositionCache := none}

/-- `Structure.add_atom(name, coordinates, option)`: validates the symbol and
the mode, appends to symbols and the chosen coordinate array, increments
`natom`, invalidates the cached composition and recomputes the other
coordinate representation.  (The `natom == 0` branches of the source are
unreachable because `natom` was just incremented.) -/
def add_atom (s : Structure) (name : String) (coordinates : Vec3)
    (option : String) : Except Err Structure := do
  if ¬(name ∈ atomicSymbols) then Except.error Err.assertionError else
  if ¬(option = "cartesian" ∨ option = "reduced") then Except.error Err.assertionError else do
  let s := {s with symbols := s.symbols ++ [name], natom := s.natom + 1,
                   compositionCache := none}
  if option = "cartesian" then
    positions2reduced {s with positions := s.positions ++ [coordinates]}
  else do
    let red ← match s.reduced with
      | some r => pure r
      | none => Except.error Err.valueError
    reduced2positions {s with reduced := some (red ++ [coordinates])}

/-- `species[atom] += 1` / `species[atom] = 1` on an association list. -/
def countUp : List (String × Int) → String → List (String × Int)
  | [], a => [(a, 1)]
  | (k, v) :: rest, a => if k = a then (k, v + 1) :: rest else (k, v) :: countUp rest a

/-- `Structure.get_composition`: the cached composition if present, otherwise
the count of each species over `symbols` in order. -/
def get_composition (s : Structure) : Composition :=
  match s.compositionCache with
  | some comp => comp
  | none => ⟨s.symbols.foldl countUp []⟩

end Structure

/-- The cell argument of `set_cell` before reshaping: a scalar, a 3-vector or a
full 3×3 matrix. -/
inductive CellInput where
  | scalar : ℚ → CellInput
  | diag : Vec3 → CellInput
  | full : Mat3 → CellInput
  deriving DecidableEq, Repr

/-- `Structure.set_cell`: a scalar becomes an isotropic diagonal, a 3-vector a
diagonal, anything else a literal 3×3 matrix. -/
def set_cell : CellInput → Mat3
  | CellInput.scalar q => Mat3.scalarMul q Mat3.identity
  | CellInput.diag v => Mat3.diagonal v
  | CellInput.full m => m

/-- The periodicity argument of `set_periodicity`: a single boolean or a list. -/
inductive PeriodicityInput where
  | single : Bool → PeriodicityInput
  | lst : List Bool → PeriodicityInput
  deriving DecidableEq, Repr

/-- `Structure.set_periodicity`: a single boolean is broadcast to all 3 axes, a
length-1 list is repeated 3 times (`3 * periodicity`), anything else is taken
literally. -/
def set_periodicity : PeriodicityInput → List Bool
  | PeriodicityInput.single b => List.replicate 3 b
  | PeriodicityInput.lst l => if l.length = 1 then l ++ l ++ l else l

/-- `Structure.is_periodic`: `any(self.periodicity)`. -/
def isPeriodic (p : List Bool) : Bool := p.any id

/-- Modelled from the spec: `Structure.is_crystal` relies on the external
Lattice collaborator's `periodic_dimensions`; the spec describes a full
crystal as periodic in all three directions. -/
def isCrystal (p : List Bool) : Bool := p = [true, true, true]

/-- The construction-time state of a `Structure`: the fields set from the
keyword arguments (already normalized by the `set_*` methods), with `none` for
every absent field; `_autocomplete` fills the gaps. -/
structure RawStructure where
  natom : Option Int
  symbols : Option (List String)
  positions : Option (List Vec3)
  reduced : Option (List Vec3)
  cell : Option Mat3
  periodicity : Option (List Bool)
  deriving DecidableEq, Repr

namespace RawStructure

/-- Auto-completion step 1: infer `natom` from positions, reduced or symbols
(in that order), defaulting to 0. -/
def step1 (st : RawStructure) : RawStructure :=
  match st.natom with
  | some _ => st
  | none =>
      match st.positions with
      | some p => {st with natom := some (p.length : Int)}
      | none =>
          match st.reduced with
          | some r => {st with natom := some (r.length : Int)}
          | none =>
              match st.symbols with
              | some sy => {st with natom := some (sy.length : Int)}
              | none => {st with natom := some 0}

/-- Auto-completion step 2: empty symbol list when `natom` is 0 and symbols
are absent. -/
def step2 (st : RawStructure) : RawStructure :=
  if st.symbols = none ∧ st.natom = some 0 then {st with symbols := some []} else st

/-- Auto-completion step 3: default periodicity `set_periodicity(True)`. -/
def step3 (st : RawStructure) : RawStructure :=
  match st.periodicity with
  | none => {st with periodicity := some (set_periodicity (PeriodicityInput.single true))}
  | some _ => st

/-- Auto-completion step 4: default cell `set_cell(1)` when periodic. -/
def step4 (st : RawStructure) : RawStructure :=
  if st.cell = none ∧ isPeriodic (st.periodicity.getD []) then
    {st with cell := some (set_cell (CellInput.scalar 1))}
  else st

/-- Auto-completion step 5 (the positions step): derive positions from reduced
via `reduced2positions` when reduced is present; otherwise an empty sequence
for `natom == 0`, the origin for `natom == 1`, and
`ValueError('Positions must be present for more than 1 atom')` otherwise.
(`natom` is always set at this point by step 1.) -/
def step5 (st : RawStructure) : Except Err RawStructure :=
  match st.positions with
  | some _ => Except.ok st
  | none =>
      match st.reduced with
      | some r =>
          match st.cell with
          | some c => Except.ok {st with positions := some (r.map fun v => rowVecMul v c)}
          | none => Except.error Err.typeError
      | none =>
          if st.natom.getD 0 = 0 then Except.ok {st with positions := some []}
          else if st.natom.getD 0 = 1 then Except.ok {st with positions := some [Vec3.zero]}
          else Except.error Err.valueError

/-- Auto-completion step 6: when reduced is absent and the structure is a full
crystal, derive it from positions via `positions2reduced` when there are
atoms, else set it to an empty array. -/
def step6 (st : RawStructure) : Except Err RawStructure :=
  if st.reduced = none ∧ isCrystal (st.periodicity.getD []) then
    if st.positions ≠ none ∧ 0 < st.natom.getD 0 then
      match st.cell with
      | some c => do
          let red ← positions2reducedL c (st.periodicity.getD []) (st.positions.getD [])
          return {st with reduced := some red}
      | none => Except.error Err.attributeError
    else Except.ok {st with reduced := some []}
  else Except.ok st

/-- `Structure._autocomplete`: the six completion steps in their fixed order. -/
def autocomplete (st : RawStructure) : Except Err RawStructure := do
  let st := step1 st
  let st := step2 st
  let st := step3 st
  let st := step4 st
  let st ← step5 st
  step6 st

end RawStructure

/-- `natom` after auto-completion step 1, i.e. the value the claim about the
positions step refers to. -/
def inferNatom (st : RawStructure) : Int :=
  ((st.step1).natom).getD 0

/-- `Structure(symbols=…, reduced=…, cell=…, periodicity=True)` as invoked by
`random_cell`: run the auto-completion and package the completed fields. -/
def structureFromKwargs (symbols : List String) (reduced : List Vec3)
    (cell : Mat3) : Except Err Structure := do
  let raw : RawStructure :=
    { natom := none, symbols := some symbols, positions := none,
      reduced := some reduced, cell := some cell,
      periodicity := some (set_periodicity (PeriodicityInput.single true)) }
  let st ← raw.autocomplete
  return { natom := st.natom.getD 0, symbols := st.symbols.getD [],
           positions := st.positions.getD [], reduced := st.reduced,
           cell := st.cell, periodicity := st.periodicity.getD [],
           compositionCache := none }

/-- Modelled from the spec: the external Lattice collaborator, exposing its
cell matrix, the lengths `a, b, c`, the angles `alpha, beta, gamma` and the
volume (values supplied by the collaborator, not recomputed here). -/
structure Lattice where
  cell : Mat3
  a : ℚ
  b : ℚ
  c : ℚ
  alpha : ℚ
  beta : ℚ
  gamma : ℚ
  volume : ℚ
  deriving DecidableEq, Repr

/-- Modelled from the spec: the bundle of external collaborators and random
draws consumed by `random_cell` — `Lattice.random_cell` (per trial),
`numpy.random.rand` entries (per trial and atom), the `Lattice` constructor
and `from_parameters_to_cell`, `minimal_distance`, the image-distance mapping
`distance2`, the periodic-table covalent radius, `math.pi`, and the
eigenvector helpers from `pychemia.utils.mathematics`. -/
structure Env where
  randomCellLat : Nat → Lattice
  randEntry : Nat → Nat → Vec3
  mkLattice : Mat3 → Lattice
  fromParametersToCell : ℚ → ℚ → ℚ → ℚ → ℚ → ℚ → Lattice
  minimalDistance : Lattice → Vec3 → Vec3 → ℚ
  distance2 : Lattice → Vec3 → Vec3 → List (Vec3 × ℚ)
  covalentRadius : String → ℚ
  piVal : ℚ
  vectorSetPerpendicular : Vec3 → Vec3 × Vec3 × Vec3
  matrixFromEig : Vec3 → Vec3 → Vec3 → ℚ → ℚ → ℚ → Mat3

/-- `sys.float_info.max`, the initial value of `best_volume`. -/
def floatMax : ℚ := (17976931348623157 : ℚ) * 10 ^ 292

/-- List indexing with Python semantics: `IndexError` when out of range. -/
def symAt (symbols : List String) (i : Nat) : Except Err String :=
  match symbols.get? i with
  | some s => pure s
  | none => Except.error Err.indexError

/-- List indexing with Python semantics: `IndexError` when out of range. -/
def rposAt (rpos : List Vec3) (i : Nat) : Except Err Vec3 :=
  match rpos.get? i with
  | some v => pure v
  | none => Except.error Err.indexError

/-- `np.random.rand(natom, 3)` for one trial: one row per atom. -/
def randomReduced (env : Env) (ntrial : Nat) (natom : Int) : List Vec3 :=
  (List.range natom.toNat).map (env.randEntry ntrial)

/-- `mins = [min(rpos[:, i]) for i in range(3)]; rpos -= mins`: shift so the
minimum coordinate on each axis is 0; Python `min` fails on an empty
sequence. -/
def shiftMins (rpos : List Vec3) : Except Err (List Vec3) :=
  match rpos with
  | [] => Except.error Err.valueError
  | p :: rest =>
      let mins : Vec3 := ⟨rest.foldl (fun m q => min m q.x) p.x,
                          rest.foldl (fun m q => min m q.y) p.y,
                          rest.foldl (fun m q => min m q.z) p.z⟩
      Except.ok ((p :: rest).map fun q => q - mins)

/-- `itertools.combinations(range(n), 2)` in iteration order. -/
def combinationsPairs (n : Nat) : List (Nat × Nat) :=
  (List.range n).flatMap fun i => (List.range' (i + 1) (n - (i + 1))).map fun j => (i, j)

/-- The `factor` computation of the `scaling` method: the running maximum over
every atom of `covalent diameter / axis length` for the three axes and over
every pair of `covalent sum / minimal distance`, starting from 1.0.  Division
is total on ℚ; the collaborator supplies nonzero lengths and distances. -/
def scalingFactor (env : Env) (lattice : Lattice) (symbols : List String)
    (rpos : List Vec3) : Except Err ℚ :=
  (List.range rpos.length).foldlM
    (fun factor i => do
      let si ← symAt symbols i
      let covalentDim := 2 * env.covalentRadius si
      let factor := if covalentDim / lattice.a > factor then covalentDim / lattice.a else factor
      let factor := if covalentDim / lattice.b > factor then covalentDim / lattice.b else factor
      let factor := if covalentDim / lattice.c > factor then covalentDim / lattice.c else factor
      (List.range' (i + 1) (rpos.length - (i + 1))).foldlM
        (fun factor j => do
          let ri ← rposAt rpos i
          let rj ← rposAt rpos j
          let distance := env.minimalDistance lattice ri rj
          let sj ← symAt symbols j
          let covalentDim := env.covalentRadius si + env.covalentRadius sj
          return if covalentDim / distance > factor then covalentDim / distance else factor)
        factor)
    1

/-- The feasibility check after adjustment: `test` starts true and is cleared
whenever some pair sits closer than its covalent sum. -/
def checkAllPairs (env : Env) (lattice : Lattice) (symbols : List String)
    (rpos : List Vec3) (natom : Int) : Except Err Bool :=
  (List.range natom.toNat).foldlM
    (fun test i =>
      (List.range' (i + 1) (natom.toNat - (i + 1))).foldlM
        (fun test j => do
          let ri ← rposAt rpos i
          let rj ← rposAt rpos j
          let distance := env.minimalDistance lattice ri rj
          let si ← symAt symbols i
          let sj ← symAt symbols j
          let covalentDim := env.covalentRadius si + env.covalentRadius sj
          return if distance < covalentDim then false else test)
        test)
    true

/-- `self.lattice` / `get_cell()` on a generated structure: the Lattice
collaborator built from the cell. -/
def getCellLat (env : Env) (s : Structure) : Except Err Lattice :=
  match s.cell with
  | some c => pure (env.mkLattice c)
  | none => Except.error Err.valueError

/-- The code after each trial loop: the verbose report dereferences
`best_structure.lattice` and the quality analysis dereferences
`best_structure.reduced`; both raise `AttributeError` when `best_structure` is
still `None`.  On success the analysis only recomputes pair distances (and
optionally prints), then the best structure is returned. -/
def afterTrialLoop (env : Env) (symbols : List String) (natom : Int)
    (verbose : Bool) (best : ℚ × Option Structure × Nat) :
    Except Err (Option Structure) := do
  if verbose then
    match best.2.1 with
    | none => Except.error Err.attributeError
    | some bs => do
        let _ ← getCellLat env bs
        pure ()
  else pure ()
  match best.2.1 with
  | none => Except.error Err.attributeError
  | some bs => do
      let rpos ← match bs.reduced with
        | some r => pure r
        | none => Except.error Err.typeError
      let blat ← getCellLat env bs
      let _ ← (combinationsPairs natom.toNat).foldlM
        (fun (_ : Unit) ij => do
          let ri ← rposAt rpos ij.1
          let rj ← rposAt rpos ij.2
          let _distance := env.minimalDistance blat ri rj
          let si ← symAt symbols ij.1
          let sj ← symAt symbols ij.2
          let _covalentDistance := env.covalentRadius si + env.covalentRadius sj
          return ())
        ()
      return some bs

/-- One trial of the `scaling` method: random lattice and positions, uniform
rescale by the computed factor (preserving angles), then record the result as
the new best when it is feasible and smaller than the best volume so far. -/
def scalingTrial (env : Env) (symbols : List String) (natom : Int)
    (best : ℚ × Option Structure × Nat) (ntrial : Nat) :
    Except Err (ℚ × Option Structure × Nat) := do
  let lattice := env.randomCellLat ntrial
  let rpos ← shiftMins (randomReduced env ntrial natom)
  let factor ← scalingFactor env lattice symbols rpos
  let lattice := env.fromParametersToCell (factor * lattice.a) (factor * lattice.b)
      (factor * lattice.c) lattice.alpha lattice.beta lattice.gamma
  if lattice.volume < best.1 then do
    let test ← checkAllPairs env lattice symbols rpos natom
    if test then do
      let st ← structureFromKwargs symbols rpos lattice.cell
      return (lattice.volume, some st, ntrial)
    else return best
  else return best

/-- One trial of the `stretching` method: random lattice and positions, then a
sequential pass over all pairs that left-multiplies the lattice by an
anisotropic stretch matrix along the minimal-distance image direction of every
violating pair, then the same best-structure update. -/
def stretchingTrial (env : Env) (symbols : List String) (natom : Int)
    (best : ℚ × Option Structure × Nat) (ntrial : Nat) :
    Except Err (ℚ × Option Structure × Nat) := do
  let lattice := env.randomCellLat ntrial
  let rpos ← shiftMins (randomReduced env ntrial natom)
  let le0 : Lattice × Vec3 := (lattice, ⟨1, 0, 0⟩)
  let le ← (combinationsPairs natom.toNat).foldlM
    (fun (le : Lattice × Vec3) ij => do
      let ri ← rposAt rpos ij.1
      let rj ← rposAt rpos ij.2
      let ret := env.distance2 le.1 ri rj
      let me := ret.foldl
        (fun (me : ℚ × Vec3) kv =>
          if 0 < kv.2 ∧ kv.2 < me.1 then (kv.2, kv.1) else me)
        (floatMax, le.2)
      let si ← symAt symbols ij.1
      let sj ← symAt symbols ij.2
      let covalentDistance := env.covalentRadius si + env.covalentRadius sj
      if me.1 < covalentDistance then
        let factor := 11 / 10 * covalentDistance / me.1
        let v123 := env.vectorSetPerpendicular me.2
        let matrixA := env.matrixFromEig v123.1 v123.2.1 v123.2.2 factor 1 1
        return (env.mkLattice (matrixA.matMul le.1.cell), me.2)
      else return (le.1, me.2))
    le0
  let lattice := le.1
  if lattice.volume < best.1 then do
    let test ← checkAllPairs env lattice symbols rpos natom
    if test then do
      let st ← structureFromKwargs symbols rpos lattice.cell
      return (lattice.volume, some st, ntrial)
    else return best
  else return best

/-- `Structure.random_cell(composition, method, verbose, maxtrial)`.  The
composition argument is taken as an already-built `Composition` (the source
also accepts a dict, wrapping it in `Composition`).  For an unrecognized
method neither branch runs and the initial `best_structure = None` is
returned. -/
def random_cell (env : Env) (comp : Composition) (method : String)
    (verbose : Bool) (maxtrial : Nat) : Except Err (Option Structure) := do
  let natom := comp.natom
  let symbols := comp.symbols
  let best0 : ℚ × Option Structure × Nat := (floatMax, none, 0)
  let _optimalVolume ← comp.covalent_volume env.covalentRadius env.piVal "cubes"
  if method = "scaling" then do
    let best ← (List.range maxtrial).foldlM (scalingTrial env symbols natom) best0
    afterTrialLoop env symbols natom verbose best
  else if method = "stretching" then do
    let best ← (List.range maxtrial).foldlM (stretchingTrial env symbols natom) best0
    afterTrialLoop env symbols natom verbose best
  else
    return best0.2.1

section Samples

/-- A concrete Lattice value for instantiating the collaborator bundle. -/
def unitLattice : Lattice :=
  { cell := Mat3.identity, a := 1, b := 1, c := 1,
    alpha := 90, beta := 90, gamma := 90, volume := 1 }

/-- A concrete collaborator bundle for evaluating `random_cell` on explicit
inputs. -/
def sampleEnv : Env :=
  { randomCellLat := fun _ => unitLattice,
    randEntry := fun _ _ => Vec3.zero,
    mkLattice := fun c => { unitLattice with cell := c },
    fromParametersToCell := fun _ _ _ _ _ _ => unitLattice,
    minimalDistance := fun _ _ _ => 1,
    distance2 := fun _ _ _ => [],
    covalentRadius := fun _ => 1,
    piVal := 3,
    vectorSetPerpendicular := fun v => (v, v, v),
    matrixFromEig := fun _ _ _ _ _ _ => Mat3.identity }

/-- A concrete composition (`H2O`). -/
def sampleComp : Composition := ⟨[("H", 2), ("O", 1)]⟩

/-- A concrete two-atom crystal with consistent fields. -/
def sampleCrystal : Structure :=
  { natom := 2, symbols := ["H", "H"],
    positions := [⟨0, 0, 0⟩, ⟨0, 0, 1/2⟩],
    reduced := some [⟨0, 0, 0⟩, ⟨0, 0, 1/2⟩],
    cell := some Mat3.identity,
    periodicity := [true, true, true],
    compositionCache := none }

/-- A concrete one-atom crystal whose cartesian position lies outside the unit
cell, so that the `[0, 1)` wrap moves it. -/
def outsideCellCrystal : Structure :=
  { natom := 1, symbols := ["H"],
    positions := [⟨3/2, 0, 0⟩],
    reduced := some [⟨0, 0, 0⟩],
    cell := some Mat3.identity,
    periodicity := [true, true, true],
    compositionCache := none }

end Samples

/-!  Theorems settling the claims.  -/

/-- Claim C10: Structure equality is decided solely by natom, cell, positions,
reduced and periodicity — two structures that differ only in their atomic
symbols compare as equal — and `__ne__` is the exact negation of `__eq__`. -/
theorem structure_eq_ignores_symbols :
    ∀ a b : Structure,
      (Structure.structEq a b = true ↔
        (a.natom = b.natom ∧ a.cell = b.cell ∧ a.positions = b.positions ∧
         a.reduced = b.reduced ∧ a.periodicity = b.periodicity)) ∧
      (∀ s1 s2 : List String,
        Structure.structEq {a with symbols := s1} {a with symbols := s2} = true) ∧
      Structure.structNe a b = !Structure.structEq a b := by
  intro a b
  refine ⟨?_, ?_, rfl⟩
  · unfold Structure.structEq
    split_ifs <;> simp_all
  · intro s1 s2
    simp [Structure.structEq]

/-- Claim C4 (amended): for every method name other than `scaling` and
`stretching`, `random_cell` does not raise; it silently returns the initial
`best_structure = None`. -/
theorem random_cell_unknown_method_returns_none (env : Env) (comp : Composition)
    (verbose : Bool) (maxtrial : Nat) (method : String)
    (h1 : method ≠ "scaling") (h2 : method ≠ "stretching") :
    random_cell env comp method verbose maxtrial = Except.ok none := by
  simp [random_cell, Composition.covalent_volume, h1, h2]
  rfl

/-- Claim C4, counterexample: at the concrete unrecognized method name
`"foobar"` the result is `ok None`, not an `InvalidMethodError` (no error at
all). -/
theorem random_cell_foobar_ok_none :
    random_cell sampleEnv sampleComp "foobar" false 5 = Except.ok none := by
  rfl

/-- Claim C4, witness: the amended theorem applied at a concrete unrecognized
method. -/
theorem random_cell_unknown_method_witness :
    random_cell sampleEnv sampleComp "banana" true 0 = Except.ok none :=
  random_cell_unknown_method_returns_none sampleEnv sampleComp true 0 "banana"
    (by decide) (by decide)

/-- Claim C1 (amended): with `maxtrial = 0`, and more generally whenever the
trial loop ends with `best_structure` still `None` (no trial satisfied the
constraint), `random_cell` with either recognized method does not return None:
it raises `AttributeError` by dereferencing `reduced`/`lattice` on the still-
`None` best structure.  No `GenerationFailedError` is raised (none exists in
the code). -/
theorem random_cell_maxtrial_zero_attribute_error (env : Env) (comp : Composition)
    (verbose : Bool) :
    (random_cell env comp "scaling" verbose 0 = Except.error Err.attributeError) ∧
    (random_cell env comp "stretching" verbose 0 = Except.error Err.attributeError) ∧
    (∀ (maxtrial : Nat) (v : ℚ) (t : Nat),
      (List.range maxtrial).foldlM (scalingTrial env comp.symbols comp.natom)
          ((floatMax, none, 0) : ℚ × Option Structure × Nat) = Except.ok (v, none, t) →
      random_cell env comp "scaling" verbose maxtrial = Except.error Err.attributeError) ∧
    (∀ (maxtrial : Nat) (v : ℚ) (t : Nat),
      (List.range maxtrial).foldlM (stretchingTrial env comp.symbols comp.natom)
          ((floatMax, none, 0) : ℚ × Option Structure × Nat) = Except.ok (v, none, t) →
      random_cell env comp "stretching" verbose maxtrial = Except.error Err.attributeError) := by
  refine ⟨?_, ?_, ?_, ?_⟩
  · cases verbose <;> rfl
  · cases verbose <;> rfl
  · intro maxtrial v t h
    show ((List.range maxtrial).foldlM (scalingTrial env comp.symbols comp.natom)
        ((floatMax, none, 0) : ℚ × Option Structure × Nat)) >>=
      (fun best => afterTrialLoop env comp.symbols comp.natom verbose best) = _
    rw [h]
    show afterTrialLoop env comp.symbols comp.natom verbose (v, none, t) = _
    cases verbose <;> rfl
  · intro maxtrial v t h
    show ((List.range maxtrial).foldlM (stretchingTrial env comp.symbols comp.natom)
        ((floatMax, none, 0) : ℚ × Option Structure × Nat)) >>=
      (fun best => afterTrialLoop env comp.symbols comp.natom verbose best) = _
    rw [h]
    show afterTrialLoop env comp.symbols comp.natom verbose (v, none, t) = _
    cases verbose <;> rfl

/-- Claim C1, witness: the amended theorem applied at a concrete collaborator
bundle, composition and `maxtrial = 0` (the empty trial fold trivially leaves
`best_structure = None`). -/
theorem random_cell_maxtrial_zero_witness :
    random_cell sampleEnv sampleComp "scaling" true 0 = Except.error Err.attributeError :=
  (random_cell_maxtrial_zero_attribute_error sampleEnv sampleComp true).2.2.1 0
    floatMax 0 rfl

/-- Claim C1, counterexample: at a concrete composition, method `scaling` and
`maxtrial = 0`, the outcome is `AttributeError`, not the claimed
`GenerationFailedError`. -/
theorem random_cell_maxtrial_zero_not_generation_failed :
    random_cell sampleEnv sampleComp "scaling" false 0 = Except.error Err.attributeError ∧
    Except.error (α := Option Structure) Err.attributeError ≠
      Except.error Err.generationFailed := by
  exact ⟨rfl, fun h => absurd (Except.error.inj h) (by decide)⟩

/-- Claim C2 (code bug): on a consistent two-atom crystal, `del_atom(0)` pops
the symbol, decrements `natom` and clears the composition cache, but both
coordinate arrays still have 2 rows afterwards, because the source discards
the value returned by `numpy.delete`; `len(positions) == natom` is broken. -/
theorem del_atom_keeps_coordinate_rows :
    (Structure.del_atom sampleCrystal 0).map
        (fun s => (s.natom, s.symbols, s.positions.length,
                   (s.reduced.getD []).length, s.compositionCache))
      = Except.ok ((1 : Int), ["H"], 2, 2, none) := by
  rfl

/-- Claim C6, counterexample: a mapping with the negative integer count −2 is
accepted by `_set_composition` instead of being rejected. -/
theorem set_composition_accepts_negative :
    set_composition [("H", PyVal.pyInt (-2))] = Except.ok [("H", -2)] := by
  rfl

/-- Claim C6 (amended): construction from a count mapping succeeds exactly when
every key is a recognized element symbol and every count is an `int`; the
counts' signs are never checked, so negative integer counts are accepted. -/
theorem set_composition_ok_iff :
    ∀ value : List (String × PyVal),
      (∃ m, set_composition value = Except.ok m) ↔
        ∀ kv ∈ value, kv.1 ∈ atomicSymbols ∧ ∃ n : Int, kv.2 = PyVal.pyInt n := by
  intro value
  induction value with
  | nil => simp [set_composition]
  | cons kv rest ih =>
      obtain ⟨k, v⟩ := kv
      constructor
      · rintro ⟨m, hm⟩
        by_cases hk : k ∈ atomicSymbols
        · cases v with
          | pyInt n =>
              simp only [set_composition, if_pos hk] at hm
              cases hrest : set_composition rest with
              | error e => rw [hrest] at hm; simp [Except.bind] at hm
              | ok r =>
                  intro kv hkv
                  rcases List.mem_cons.mp hkv with h | h
                  · subst h; exact ⟨hk, n, rfl⟩
                  · exact (ih.mp ⟨r, hrest⟩) kv h
          | pyFloat q => simp [set_composition, if_pos hk] at hm
          | pyStr s => simp [set_composition, if_pos hk] at hm
        · simp [set_composition, if_neg hk] at hm
      · intro h
        obtain ⟨hk, n, hv⟩ := h (k, v) (List.mem_cons_self _ _)
        subst hv
        obtain ⟨r, hr⟩ := ih.mpr (fun kv hkv => h kv (List.mem_cons_of_mem _ hkv))
        refine ⟨(k, n) :: r, ?_⟩
        simp [set_composition, if_pos hk, hr]

/-- Accumulating a sum with `foldl` equals the initial value plus the sum of
the mapped list. -/
theorem foldl_add_eq_sum {α : Type} (f : α → ℚ) :
    ∀ (l : List α) (init : ℚ), l.foldl (fun v a => v + f a) init = init + (l.map f).sum := by
  intro l
  induction l with
  | nil => intro init; simp
  | cons a rest ih => intro init; simp [List.foldl_cons, ih, add_assoc]

/-- Claim C9: `covalent_volume(packing)` returns the sum over species of
`factor · count · covalent_radius³`, with factor 8 for `cubes` and `4π/3` for
`spheres` (π being the `math.pi` parameter), and raises for any other packing
value (`ValueError`, named `InvalidPackingError` by the spec). -/
theorem covalent_volume_spec (cr : String → ℚ) (piVal : ℚ) (comp : Composition)
    (packing : String) :
    (packing = "cubes" →
      comp.covalent_volume cr piVal packing =
        Except.ok ((comp.composition.map fun sv => 8 * (sv.2 : ℚ) * cr sv.1 ^ 3).sum)) ∧
    (packing = "spheres" →
      comp.covalent_volume cr piVal packing =
        Except.ok ((comp.composition.map fun sv => (4 * piVal / 3) * (sv.2 : ℚ) * cr sv.1 ^ 3).sum)) ∧
    (packing ≠ "cubes" → packing ≠ "spheres" →
      comp.covalent_volume cr piVal packing = Except.error Err.valueError) := by
  refine ⟨?_, ?_, ?_⟩
  · intro h
    subst h
    simp [Composition.covalent_volume, foldl_add_eq_sum]
    rfl
  · intro h
    subst h
    simp [Composition.covalent_volume, foldl_add_eq_sum]
    rfl
  · intro h1 h2
    simp [Composition.covalent_volume, h1, h2]

/-- Claim C9, witness: the theorem applied at a concrete radius table, π value,
composition and the `spheres` packing. -/
theorem covalent_volume_spec_witness :
    Composition.covalent_volume (fun _ => 1) 3 sampleComp "spheres" =
      Except.ok ((sampleComp.composition.map fun sv => (4 * 3 / 3 : ℚ) * (sv.2 : ℚ) * 1 ^ 3).sum) :=
  (covalent_volume_spec (fun _ => 1) 3 sampleComp "spheres").2.1 rfl

/-- Vectors with equal components are equal. -/
@[ext] theorem Vec3.ext' (u v : Vec3) (hx : u.x = v.x) (hy : u.y = v.y) (hz : u.z = v.z) :
    u = v := by
  cases u; cases v; simp_all

@[simp] theorem Vec3.add_x (u v : Vec3) : (u + v).x = u.x + v.x := rfl

@[simp] theorem Vec3.add_y (u v : Vec3) : (u + v).y = u.y + v.y := rfl

@[simp] theorem Vec3.add_z (u v : Vec3) : (u + v).z = u.z + v.z := rfl

@[simp] theorem Vec3.sub_x (u v : Vec3) : (u - v).x = u.x - v.x := rfl

@[simp] theorem Vec3.sub_y (u v : Vec3) : (u - v).y = u.y - v.y := rfl

@[simp] theorem Vec3.sub_z (u v : Vec3) : (u - v).z = u.z - v.z := rfl

@[simp] theorem Vec3.neg_x (u : Vec3) : (-u).x = -u.x := rfl

@[simp] theorem Vec3.neg_y (u : Vec3) : (-u).y = -u.y := rfl

@[simp] theorem Vec3.neg_z (u : Vec3) : (-u).z = -u.z := rfl

@[simp] theorem Vec3.smul_x (q : ℚ) (u : Vec3) : (Vec3.smul q u).x = q * u.x := rfl

@[simp] theorem Vec3.smul_y (q : ℚ) (u : Vec3) : (Vec3.smul q u).y = q * u.y := rfl

@[simp] theorem Vec3.smul_z (q : ℚ) (u : Vec3) : (Vec3.smul q u).z = q * u.z := rfl

@[simp] theorem rowVecMul_x (v : Vec3) (m : Mat3) :
    (rowVecMul v m).x = v.x * m.r0.x + v.y * m.r1.x + v.z * m.r2.x := rfl

@[simp] theorem rowVecMul_y (v : Vec3) (m : Mat3) :
    (rowVecMul v m).y = v.x * m.r0.y + v.y * m.r1.y + v.z * m.r2.y := rfl

@[simp] theorem rowVecMul_z (v : Vec3) (m : Mat3) :
    (rowVecMul v m).z = v.x * m.r0.z + v.y * m.r1.z + v.z * m.r2.z := rfl

/-- Row-vector multiplication is linear in the vector (difference form). -/
theorem rowVecMul_sub (u v : Vec3) (m : Mat3) :
    rowVecMul (u - v) m = rowVecMul u m - rowVecMul v m := by
  ext <;> simp <;> ring

/-- On a nonsingular matrix `solveRows` returns the Cramer solutions. -/
theorem solveRows_eq_some (a : Mat3) (l : List Vec3) (h : a.det ≠ 0) :
    solveRows a l = some (l.map fun b => cramer3 a b) := by
  simp [solveRows, h]

/-- The Cramer solution of `cellᵀ x = b` is a row vector which, multiplied by
the cell, gives back `b`: this is the algebraic content of the
cartesian→reduced→cartesian round trip before wrapping. -/
theorem cramer3_transpose_rowVecMul (c : Mat3) (b : Vec3) (hdet : c.transpose.det ≠ 0) :
    rowVecMul (cramer3 c.transpose b) c = b := by
  obtain ⟨⟨c00, c01, c02⟩, ⟨c10, c11, c12⟩, ⟨c20, c21, c22⟩⟩ := c
  obtain ⟨b0, b1, b2⟩ := b
  simp only [Mat3.transpose, Mat3.det] at hdet
  ext <;>
    simp only [cramer3, Mat3.transpose, Mat3.det, rowVecMul_x, rowVecMul_y, rowVecMul_z] <;>
    field_simp <;> ring

/-- Claim C3 (amended): on a full crystal with invertible cell, the
cartesian→reduced→cartesian round trip succeeds and returns each position
translated by an integer combination of the lattice vectors (the `[0, 1)`
wrap); it is the original position only when the solved reduced coordinates
already lie in `[0, 1)`. -/
theorem roundtrip_upto_lattice (s : Structure) (c : Mat3)
    (hc : s.cell = some c) (hper : s.periodicity = [true, true, true])
    (hdet : c.transpose.det ≠ 0) :
    ∃ s' : Structure,
      (s.positions2reduced >>= Structure.reduced2positions) = Except.ok s' ∧
      List.Forall₂ (fun p p' : Vec3 => ∃ k0 k1 k2 : ℤ,
        p' = p - rowVecMul ⟨(k0 : ℚ), (k1 : ℚ), (k2 : ℚ)⟩ c) s.positions s'.positions := by
  obtain ⟨nat, sym, pos, red0, cell0, per0, cache⟩ := s
  replace hc : cell0 = some c := hc
  replace hper : per0 = [true, true, true] := hper
  subst hc
  subst hper
  have hred : positions2reducedL c [true, true, true] pos =
      Except.ok (pos.map fun p =>
        (⟨wrap01 (cramer3 c.transpose p).x, wrap01 (cramer3 c.transpose p).y,
          wrap01 (cramer3 c.transpose p).z⟩ : Vec3)) := by
    unfold positions2reducedL
    rw [solveRows_eq_some c.transpose pos hdet]
    show Except.ok _ = _
    rw [List.map_map]
    rfl
  refine ⟨⟨nat, sym,
      (pos.map fun p =>
        (⟨wrap01 (cramer3 c.transpose p).x, wrap01 (cramer3 c.transpose p).y,
          wrap01 (cramer3 c.transpose p).z⟩ : Vec3)).map (fun v => rowVecMul v c),
      some (pos.map fun p =>
        (⟨wrap01 (cramer3 c.transpose p).x, wrap01 (cramer3 c.transpose p).y,
          wrap01 (cramer3 c.transpose p).z⟩ : Vec3)),
      some c, [true, true, true], cache⟩, ?_, ?_⟩
  · show (positions2reducedL c [true, true, true] pos >>= fun red =>
        Except.ok (⟨nat, sym, pos, some red, some c, [true, true, true], cache⟩ :
          Structure)) >>= Structure.reduced2positions = _
    rw [hred]
    rfl
  · show List.Forall₂ _ pos ((pos.map _).map _)
    rw [List.map_map, List.forall₂_map_right_iff, List.forall₂_same]
    intro p _
    refine ⟨⌊(cramer3 c.transpose p).x⌋, ⌊(cramer3 c.transpose p).y⌋,
            ⌊(cramer3 c.transpose p).z⌋, ?_⟩
    show rowVecMul (⟨wrap01 (cramer3 c.transpose p).x, wrap01 (cramer3 c.transpose p).y,
      wrap01 (cramer3 c.transpose p).z⟩ : Vec3) c = _
    have hwrap : (⟨wrap01 (cramer3 c.transpose p).x, wrap01 (cramer3 c.transpose p).y,
        wrap01 (cramer3 c.transpose p).z⟩ : Vec3) = cramer3 c.transpose p -
          ⟨(⌊(cramer3 c.transpose p).x⌋ : ℚ), (⌊(cramer3 c.transpose p).y⌋ : ℚ),
           (⌊(cramer3 c.transpose p).z⌋ : ℚ)⟩ := by
      ext <;> simp only [Vec3.sub_x, Vec3.sub_y, Vec3.sub_z, wrap01, Int.self_sub_floor]
    rw [hwrap, rowVecMul_sub, cramer3_transpose_rowVecMul c p hdet]

/-- Claim C3, counterexample: on a one-atom crystal with the identity cell and
cartesian position `(3/2, 0, 0)`, the round trip returns `(1/2, 0, 0)` — the
wrap into `[0, 1)` moved the atom — so `P` is not restored for arbitrary
position sets. -/
theorem roundtrip_moves_outside_position :
    ((outsideCellCrystal.positions2reduced >>= Structure.reduced2positions).map
        Structure.positions) = Except.ok [⟨1/2, 0, 0⟩] ∧
    outsideCellCrystal.positions = [⟨3/2, 0, 0⟩] ∧
    ([(⟨1/2, 0, 0⟩ : Vec3)] : List Vec3) ≠ [⟨3/2, 0, 0⟩] := by
  have hdet : (Mat3.transpose Mat3.identity).det ≠ 0 := by
    norm_num [Mat3.transpose, Mat3.identity, Mat3.det]
  have hcr : cramer3 (Mat3.transpose Mat3.identity) ⟨3/2, 0, 0⟩ = ⟨3/2, 0, 0⟩ := by
    ext <;> norm_num [cramer3, Mat3.transpose, Mat3.identity, Mat3.det]
  have hwrapv : (⟨wrap01 (3/2 : ℚ), wrap01 (0 : ℚ), wrap01 (0 : ℚ)⟩ : Vec3) =
      ⟨1/2, 0, 0⟩ := by
    have h32 : Int.fract ((3 : ℚ)/2) = 1/2 := by
      rw [Int.fract]
      norm_num
    ext <;> simp [wrap01, h32, Int.fract_zero]
  have hred : positions2reducedL Mat3.identity [true, true, true] [⟨3/2, 0, 0⟩] =
      Except.ok [⟨1/2, 0, 0⟩] := by
    unfold positions2reducedL
    rw [solveRows_eq_some _ _ hdet]
    simp only [List.map_cons, List.map_nil]
    rw [hcr]
    show Except.ok [(⟨wrap01 (3/2 : ℚ), wrap01 (0 : ℚ), wrap01 (0 : ℚ)⟩ : Vec3)] = _
    rw [hwrapv]
  have h1 : outsideCellCrystal.positions2reduced = Except.ok
      (⟨1, ["H"], [⟨3/2, 0, 0⟩], some [⟨1/2, 0, 0⟩], some Mat3.identity,
        [true, true, true], none⟩ : Structure) := by
    show (positions2reducedL Mat3.identity [true, true, true] [⟨3/2, 0, 0⟩] >>= fun red =>
      Except.ok (⟨1, ["H"], [⟨3/2, 0, 0⟩], some red, some Mat3.identity,
        [true, true, true], none⟩ : Structure)) = _
    rw [hred]
    rfl
  have h2 : Structure.reduced2positions
      (⟨1, ["H"], [⟨3/2, 0, 0⟩], some [⟨1/2, 0, 0⟩], some Mat3.identity,
        [true, true, true], none⟩ : Structure) = Except.ok
      (⟨1, ["H"], [rowVecMul ⟨1/2, 0, 0⟩ Mat3.identity], some [⟨1/2, 0, 0⟩],
        some Mat3.identity, [true, true, true], none⟩ : Structure) := rfl
  have h3 : rowVecMul (⟨1/2, 0, 0⟩ : Vec3) Mat3.identity = ⟨1/2, 0, 0⟩ := by
    ext <;> norm_num [Mat3.identity]
  refine ⟨?_, rfl, ?_⟩
  · rw [h1]
    show Except.map Structure.positions (Structure.reduced2positions
      (⟨1, ["H"], [⟨3/2, 0, 0⟩], some [⟨1/2, 0, 0⟩], some Mat3.identity,
        [true, true, true], none⟩ : Structure)) = _
    rw [h2]
    show Except.ok [rowVecMul (⟨1/2, 0, 0⟩ : Vec3) Mat3.identity] = _
    rw [h3]
  · intro h
    injection h with h1 h2
    rw [Vec3.mk.injEq] at h1
    norm_num at h1

/-- Claim C3, witness for the amended theorem: applied to the concrete
one-atom crystal with identity cell. -/
theorem roundtrip_upto_lattice_witness :
    ∃ s' : Structure,
      (outsideCellCrystal.positions2reduced >>= Structure.reduced2positions) = Except.ok s' ∧
      List.Forall₂ (fun p p' : Vec3 => ∃ k0 k1 k2 : ℤ,
        p' = p - rowVecMul ⟨(k0 : ℚ), (k1 : ℚ), (k2 : ℚ)⟩ Mat3.identity)
        outsideCellCrystal.positions s'.positions :=
  roundtrip_upto_lattice outsideCellCrystal Mat3.identity rfl rfl
    (by norm_num [Mat3.transpose, Mat3.identity, Mat3.det])

/-- Step 1 only sets `natom`. -/
theorem step1_positions (st : RawStructure) : st.step1.positions = st.positions := by
  unfold RawStructure.step1
  repeat' split
  all_goals rfl

/-- Step 1 only sets `natom`. -/
theorem step1_reduced (st : RawStructure) : st.step1.reduced = st.reduced := by
  unfold RawStructure.step1
  repeat' split
  all_goals rfl

/-- After step 1, `natom` is always set. -/
theorem step1_natom_isSome (st : RawStructure) : ∃ n, st.step1.natom = some n := by
  unfold RawStructure.step1
  split
  next x heq => exact ⟨x, heq⟩
  next heq =>
    repeat' split
    all_goals exact ⟨_, rfl⟩

/-- After step 1, `natom` is the inferred atom count. -/
theorem step1_natom (st : RawStructure) : st.step1.natom = some (inferNatom st) := by
  obtain ⟨n, hn⟩ := step1_natom_isSome st
  unfold inferNatom
  rw [hn]
  rfl

/-- Step 2 only sets `symbols`. -/
theorem step2_positions (st : RawStructure) : st.step2.positions = st.positions := by
  unfold RawStructure.step2
  split
  all_goals rfl

/-- Step 2 only sets `symbols`. -/
theorem step2_reduced (st : RawStructure) : st.step2.reduced = st.reduced := by
  unfold RawStructure.step2
  split
  all_goals rfl

/-- Step 2 only sets `symbols`. -/
theorem step2_natom (st : RawStructure) : st.step2.natom = st.natom := by
  unfold RawStructure.step2
  split
  all_goals rfl

/-- Step 3 only sets `periodicity`. -/
theorem step3_positions (st : RawStructure) : st.step3.positions = st.positions := by
  unfold RawStructure.step3
  split
  all_goals rfl

/-- Step 3 only sets `periodicity`. -/
theorem step3_reduced (st : RawStructure) : st.step3.reduced = st.reduced := by
  unfold RawStructure.step3
  split
  all_goals rfl

/-- Step 3 only sets `periodicity`. -/
theorem step3_natom (st : RawStructure) : st.step3.natom = st.natom := by
  unfold RawStructure.step3
  split
  all_goals rfl

/-- Step 4 only sets `cell`. -/
theorem step4_positions (st : RawStructure) : st.step4.positions = st.positions := by
  unfold RawStructure.step4
  split
  all_goals rfl

/-- Step 4 only sets `cell`. -/
theorem step4_reduced (st : RawStructure) : st.step4.reduced = st.reduced := by
  unfold RawStructure.step4
  split
  all_goals rfl

/-- Step 4 only sets `cell`. -/
theorem step4_natom (st : RawStructure) : st.step4.natom = st.natom := by
  unfold RawStructure.step4
  split
  all_goals rfl

/-- Claim C8: during construction auto-completion, when positions are absent
they are derived from reduced (via `reduced · cell`) when reduced is present;
otherwise positions become the empty sequence when the completed natom is 0
(and the whole construction succeeds), the origin when it is 1, and the
construction fails (`ValueError`, the spec's `AmbiguousGeometryError`) when it
exceeds 1 and neither positions nor reduced was supplied. -/
theorem autocomplete_positions (st : RawStructure) (hpos : st.positions = none) :
    (∀ r c, st.reduced = some r → (st.step1.step2.step3.step4).cell = some c →
      RawStructure.step5 (st.step1.step2.step3.step4) =
        Except.ok {st.step1.step2.step3.step4 with
          positions := some (r.map fun v => rowVecMul v c)}) ∧
    (st.reduced = none → inferNatom st = 0 →
      ∃ out, st.autocomplete = Except.ok out ∧ out.positions = some []) ∧
    (st.reduced = none → inferNatom st = 1 →
      RawStructure.step5 (st.step1.step2.step3.step4) =
        Except.ok {st.step1.step2.step3.step4 with positions := some [Vec3.zero]}) ∧
    (st.reduced = none → 1 < inferNatom st →
      st.autocomplete = Except.error Err.valueError) := by
  have hauto : st.autocomplete =
      RawStructure.step5 (st.step1.step2.step3.step4) >>= RawStructure.step6 := rfl
  have hp4 : (st.step1.step2.step3.step4).positions = none := by
    rw [step4_positions, step3_positions, step2_positions, step1_positions, hpos]
  have hn4 : (st.step1.step2.step3.step4).natom = some (inferNatom st) := by
    rw [step4_natom, step3_natom, step2_natom, step1_natom]
  have hr4 : (st.step1.step2.step3.step4).reduced = st.reduced := by
    rw [step4_reduced, step3_reduced, step2_reduced, step1_reduced]
  rcases hs4 : st.step1.step2.step3.step4 with ⟨n4, sy4, p4, r4, c4, per4⟩
  rw [hs4] at hp4 hn4 hr4
  replace hp4 : p4 = none := hp4
  replace hn4 : n4 = some (inferNatom st) := hn4
  replace hr4 : r4 = st.reduced := hr4
  subst hp4
  subst hn4
  subst hr4
  refine ⟨?_, ?_, ?_, ?_⟩
  · intro r c hr hc
    replace hc : c4 = some c := hc
    subst hc
    rw [hr]
    rfl
  · intro hr h0
    rw [hauto, hs4, hr, h0]
    cases hcr : isCrystal (per4.getD []) with
    | true =>
        refine ⟨⟨some 0, sy4, some [], some [], c4, per4⟩, ?_, rfl⟩
        show RawStructure.step6 ⟨some 0, sy4, some [], none, c4, per4⟩ = _
        unfold RawStructure.step6
        rw [if_pos ⟨rfl, hcr⟩,
            if_neg (by rintro ⟨-, hlt⟩; simp at hlt)]
    | false =>
        refine ⟨⟨some 0, sy4, some [], none, c4, per4⟩, ?_, rfl⟩
        show RawStructure.step6 ⟨some 0, sy4, some [], none, c4, per4⟩ = _
        unfold RawStructure.step6
        rw [if_neg (by rintro ⟨-, hcry⟩; rw [hcr] at hcry; exact Bool.false_ne_true hcry)]
  · intro hr h1
    rw [hr, h1]
    rfl
  · intro hr hgt
    rw [hauto, hs4, hr]
    unfold RawStructure.step5
    dsimp only [Option.getD_some]
    rw [if_neg (by omega), if_neg (by omega)]
    rfl

/-- Claim C8, witness: two symbols and no geometry at all make the
auto-completion fail in the positions step. -/
theorem autocomplete_positions_witness :
    RawStructure.autocomplete ⟨none, some ["H", "H"], none, none, none, none⟩ =
      Except.error Err.valueError :=
  (autocomplete_positions ⟨none, some ["H", "H"], none, none, none, none⟩ rfl).2.2.2
    rfl (by decide)

/-- A lowercase ASCII letter is not an uppercase one. -/
theorem isLower_not_isUpper (c : Char) (h : c.isLower = true) : c.isUpper = false := by
  simp [Char.isLower] at h
  simp [Char.isUpper]
  intro h65
  obtain ⟨h97, h122⟩ := h
  rw [UInt32.lt_def, BitVec.lt_def]
  rw [UInt32.le_def, BitVec.le_def] at h97
  exact lt_of_lt_of_le (by decide) h97

/-- One step of the scanning loop inside a token: the character is skipped and
the jump counter decremented. -/
theorem fpGo_skip (a : Char) (rest : List Char) (j : Nat) (ret : List (String × Int)) :
    fpGo (a :: rest) (j + 1) ret = fpGo rest j ret := rfl

/-- One step of the claim-side scan. -/
theorem claimScan_cons (c : Char) (rest : List Char) (ret : List (String × Int)) :
    claimScan (c :: rest) ret = claimScan rest
      (if c.isUpper then
        dictSet ret (speciesAt c rest).1 (countAfter rest (speciesAt c rest).2)
      else ret) := rfl

/-- The claim-side scan ignores a character that is not uppercase. -/
theorem claimScan_not_upper (a : Char) (rest : List Char) (ret : List (String × Int))
    (h : a.isUpper = false) : claimScan (a :: rest) ret = claimScan rest ret := by
  rw [claimScan_cons, if_neg (by simp [h])]

/-- The jump-based scanning loop of the source agrees with the claim's
character-at-a-time scan: the skipped characters are exactly the lowercase
symbol extensions, which the claim-side scan ignores. -/
theorem fpGo_eq_claimScan : ∀ (n : Nat) (l : List Char) (ret : List (String × Int)),
    l.length ≤ n → fpGo l 0 ret = claimScan l ret := by
  intro n
  induction n with
  | zero =>
      intro l ret h
      cases l with
      | nil => rfl
      | cons c rest => simp at h
  | succ n ih =>
      intro l ret h
      cases l with
      | nil => rfl
      | cons c rest =>
          by_cases hc : c.isUpper
          · rw [show fpGo (c :: rest) 0 ret = fpGo rest (speciesAt c rest).2
                  (dictSet ret (speciesAt c rest).1 (countAfter rest (speciesAt c rest).2))
                from by rw [fpGo, if_pos hc],
                claimScan_cons, if_pos hc]
            cases rest with
            | nil =>
                simp only [speciesAt]
                rfl
            | cons c1 rest1 =>
                cases rest1 with
                | nil =>
                    by_cases h1 : c1.isLower
                    · simp only [speciesAt, if_pos h1]
                      rw [claimScan_not_upper c1 [] _ (isLower_not_isUpper c1 h1)]
                      rfl
                    · simp only [speciesAt, if_neg h1]
                      exact ih [c1] _ (by simp at h ⊢; omega)
                | cons c2 rest2 =>
                    by_cases h1 : c1.isLower
                    · by_cases h2 : c2.isLower
                      · simp only [speciesAt, if_pos h1, if_pos h2]
                        rw [show fpGo (c1 :: c2 :: rest2) 2 _ = fpGo rest2 0 _ from rfl,
                            claimScan_not_upper c1 _ _ (isLower_not_isUpper c1 h1),
                            claimScan_not_upper c2 _ _ (isLower_not_isUpper c2 h2)]
                        exact ih rest2 _ (by simp at h ⊢; omega)
                      · simp only [speciesAt, if_pos h1, if_neg h2]
                        rw [show fpGo (c1 :: c2 :: rest2) 1 _ = fpGo (c2 :: rest2) 0 _ from rfl,
                            claimScan_not_upper c1 _ _ (isLower_not_isUpper c1 h1)]
                        exact ih (c2 :: rest2) _ (by simp at h ⊢; omega)
                    · simp only [speciesAt, if_neg h1]
                      exact ih (c1 :: c2 :: rest2) _ (by simp at h ⊢; omega)
          · rw [show fpGo (c :: rest) 0 ret = fpGo rest 0 ret
                  from by rw [fpGo, if_neg (by simp [hc])],
                claimScan_not_upper c rest ret (by simpa using hc)]
            exact ih rest ret (by simp at h ⊢; omega)

/-- Claim C5: `formula_parser` scans left to right exactly as the claim
describes — a token at each uppercase letter, symbol extension by one or two
lowercase letters (the second only when the following character is lowercase),
all immediately following digits as the count with default 1, other characters
ignored, and later tokens overwriting earlier counts of the same symbol. -/
theorem formulaParser_eq_claimScan (value : String) :
    formulaParser value = claimScan value.toList [] :=
  fpGo_eq_claimScan value.toList.length value.toList [] le_rfl

/-- `pyMinR` is the optional minimum of the list, with Python's `ValueError`
on an empty sequence. -/
theorem pyMinR_eq_min? (l : List ℝ) :
    pyMinR l = match l.min? with
      | none => Except.error Err.valueError
      | some m => Except.ok m := by
  cases l <;> rfl

/-- The optional minimum over ℝ is invariant under list reversal. -/
theorem min?_reverse_real (l : List ℝ) : l.reverse.min? = l.min? := by
  haveI : Std.Antisymm ((· : ℝ) ≤ ·) := ⟨@fun a b h1 h2 => le_antisymm h1 h2⟩
  cases hl : l.min? with
  | none =>
      rw [List.min?_eq_none_iff] at hl
      subst hl
      rfl
  | some a =>
      rw [List.min?_eq_some_iff (fun a => le_refl a) (fun a b => min_choice a b)
            (fun a b c => le_min_iff)] at hl ⊢
      simpa [List.mem_reverse] using hl

/-- Python's `min` is invariant under list reversal. -/
theorem pyMinR_reverse (l : List ℝ) : pyMinR l.reverse = pyMinR l := by
  rw [pyMinR_eq_min?, pyMinR_eq_min?, min?_reverse_real]

/-- Negating the row vector does not change the squared norm of the product. -/
theorem sqNorm_rowVecMul_neg (u : Vec3) (m : Mat3) :
    Vec3.sqNorm (rowVecMul (-u) m) = Vec3.sqNorm (rowVecMul u m) := by
  simp [Vec3.sqNorm]
  ring

/-- Swapping the two atoms negates the image vector: `sⱼ - sᵢ + v` is the
negation of `sᵢ - sⱼ + (-v)`. -/
theorem swap_delta (si sj v : Vec3) : sj - si + v = -(si - sj + (-v)) := by
  ext <;> simp <;> ring

/-- The 27 image offsets are closed under negation: negation reverses the
enumeration order of the three nested loops. -/
theorem imageOffsets_map_neg : imageOffsets.map (fun v => -v) = imageOffsets.reverse := by
  rfl

/-- Claim C7: `get_distance` with periodicity is symmetric in the two atom
indices, for every structure, every reduced-bases collaborator and every
tolerance: the 27-image minimum over `‖sᵢ - sⱼ + v‖` equals the one over
`‖sⱼ - sᵢ + v‖`, and all error paths coincide. -/
theorem get_distance_symm (grb : Mat3 → ℚ → Mat3) (s : Structure) (i j : Nat) (tol : ℚ) :
    Structure.get_distance grb s i j true tol =
      Structure.get_distance grb s j i true tol := by
  unfold Structure.get_distance
  rw [if_pos rfl, if_pos rfl]
  cases hc : s.cell with
  | none => rfl
  | some c =>
      dsimp only [Bind.bind, Except.bind, Pure.pure, Except.pure]
      cases hinv : inv3 (grb c tol) with
      | none => rfl
      | some rbinv =>
          dsimp only [Bind.bind, Except.bind, Pure.pure, Except.pure]
          cases hgi : (s.positions.map fun p => wrapHalf (rowVecMul p rbinv)).get? i with
          | none =>
              cases hgj : (s.positions.map fun p => wrapHalf (rowVecMul p rbinv)).get? j with
              | none => rfl
              | some sj => rfl
          | some si =>
              cases hgj : (s.positions.map fun p => wrapHalf (rowVecMul p rbinv)).get? j with
              | none => rfl
              | some sj =>
                  dsimp only [Bind.bind, Except.bind, Pure.pure, Except.pure]
                  have hpt : (imageOffsets.map fun off =>
                      Real.sqrt ((Vec3.sqNorm (rowVecMul (sj - si + off) (grb c tol)) : ℚ) : ℝ)) =
                      ((imageOffsets.map fun off =>
                        Real.sqrt ((Vec3.sqNorm (rowVecMul (si - sj + off) (grb c tol)) : ℚ) : ℝ)).reverse) := by
                    rw [← List.map_reverse, ← imageOffsets_map_neg, List.map_map]
                    refine List.map_congr_left ?_
                    intro off _
                    show Real.sqrt _ = Real.sqrt _
                    rw [swap_delta, sqNorm_rowVecMul_neg]
                  rw [hpt, pyMinR_reverse]

end PyChemia
